import Mathlib

/-!
Shallow embedding of the production-tracking server (`src/server.py`) and
verification of its specification claims.

The server keeps three in-memory stores (submission log, machine plans,
connection-to-machine presence map) plus a cable-stock table, mutates them in
Socket.IO / HTTP handlers, and pushes recomputed dashboard snapshots to
listeners.  Python dictionaries are modelled as association lists with
first-occurrence lookup, JSON payload values as `PyVal` (strings and integers;
fractional numbers are out of scope for every claim), and `datetime` values as
five-field records parsed by a faithful model of
`datetime.strptime(_, "%Y-%m-%d %H:%M")`.  Each Socket.IO `emit` becomes an
`Emit` value returned by the handler next to the updated state.
-/

namespace CableServer

/-- A JSON-payload value as stored in a submission dictionary.  Manual and
measured quality fields, names, quantities etc. arrive as strings or numbers;
fractional numbers are modelled by integers (no claim depends on a fractional
value). -/
inductive PyVal where
  | vStr (s : String)
  | vInt (n : Int)
deriving DecidableEq

/-- Python truthiness of a payload value: empty string and zero are falsy. -/
def PyVal.truthy : PyVal → Bool
  | .vStr s => s ≠ ""
  | .vInt n => n ≠ 0

/-- Python's `a or b` on two optional payload values (`dict.get` returns `None`
for a missing key, and `None` is falsy). -/
def pyOr (a b : Option PyVal) : Option PyVal :=
  match a with
  | some v => if v.truthy then some v else b
  | none => b

/-- Python `str()` of a payload value, as used by f-string interpolation. -/
def pyStrOf : PyVal → String
  | .vStr s => s
  | .vInt n => toString n

/-! ### Association-list model of Python `dict` -/

/-- `d.get(k)` / `d[k]`: first-occurrence lookup (keys of a Python dict are
unique, which reachable states preserve). -/
def dlookup {α β : Type} [DecidableEq α] : List (α × β) → α → Option β
  | [], _ => none
  | (k', v) :: rest, k => if k' = k then some v else dlookup rest k

/-- `d[k] = v`: overwrite the first binding of `k` (keeping the stored key),
or append a new binding, preserving insertion order like a Python dict. -/
def dset {α β : Type} [DecidableEq α] : List (α × β) → α → β → List (α × β)
  | [], k, v => [(k, v)]
  | (k', v') :: rest, k, v =>
    if k' = k then (k', v) :: rest else (k', v') :: dset rest k v

/-- `d.pop(k)`: remove the first binding of `k`, if any. -/
def dremove {α β : Type} [DecidableEq α] : List (α × β) → α → List (α × β)
  | [], _ => []
  | (k', v') :: rest, k =>
    if k' = k then rest else (k', v') :: dremove rest k

/-! ### Dates and times

`datetime.strptime` is standard-library code, modelled here from its documented
behaviour for the two formats the server uses: `%Y` matches exactly four
digits, `%m`/`%d`/`%H`/`%M` match one or two digits, and the resulting
calendar date / wall-clock time must be valid (`ValueError` otherwise,
modelled as `none`). -/

structure Date where
  year : Nat
  month : Nat
  day : Nat
deriving DecidableEq

structure DateTime where
  year : Nat
  month : Nat
  day : Nat
  hour : Nat
  minute : Nat
deriving DecidableEq

/-- The date component of a datetime (`datetime.date()`). -/
def DateTime.dateOf (a : DateTime) : Date :=
  ⟨a.year, a.month, a.day⟩

/-- `datetime.min`, the default sort key used by the CSV export. -/
def dtMin : DateTime := ⟨1, 1, 1, 0, 0⟩

/-- Component list of a datetime; Python compares datetimes lexicographically
by components (seconds and below are always zero here). -/
def DateTime.parts (a : DateTime) : List Nat :=
  [a.year, a.month, a.day, a.hour, a.minute]

/-- Lexicographic `≤` on equal-length component lists. -/
def natLexLe : List Nat → List Nat → Bool
  | [], _ => true
  | _ :: _, [] => false
  | a :: as, b :: bs => decide (a < b) || (decide (a = b) && natLexLe as bs)

/-- Python `datetime` comparison `a <= b`. -/
def DateTime.leb (a b : DateTime) : Bool :=
  natLexLe a.parts b.parts

/-- Split a character list at every occurrence of `sep` (Python
`str.split(sep)` for a one-character separator). -/
def chSplitOn (sep : Char) : List Char → List (List Char)
  | [] => [[]]
  | c :: cs =>
    if c = sep then [] :: chSplitOn sep cs
    else
      match chSplitOn sep cs with
      | [] => [[c]]
      | g :: gs => (c :: g) :: gs

/-- Value of a nonempty all-digit character list, `none` otherwise. -/
def digitsVal (cs : List Char) : Option Nat :=
  if cs ≠ [] ∧ cs.all Char.isDigit then
    some (cs.foldl (fun acc c => acc * 10 + (c.toNat - 48)) 0)
  else none

def isLeapYear (y : Nat) : Bool :=
  (y % 4 = 0 && y % 100 ≠ 0) || y % 400 = 0

def daysInMonth (y m : Nat) : Nat :=
  if m = 2 then (if isLeapYear y then 29 else 28)
  else if m = 4 ∨ m = 6 ∨ m = 9 ∨ m = 11 then 30
  else 31

/-- `datetime.strptime(s, "%Y-%m-%d").date()`, returning `none` on
`ValueError`: exactly three dash-separated digit groups, a four-digit year
(`MINYEAR = 1`), a one-or-two-digit month and day, and a valid calendar
date. -/
def parseDate (s : String) : Option Date :=
  match chSplitOn '-' s.data with
  | [ys, ms, ds] =>
    if ys.length = 4 ∧ 1 ≤ ms.length ∧ ms.length ≤ 2 ∧ 1 ≤ ds.length ∧ ds.length ≤ 2 then
      match digitsVal ys, digitsVal ms, digitsVal ds with
      | some y, some m, some d =>
        if 1 ≤ y ∧ 1 ≤ m ∧ m ≤ 12 ∧ 1 ≤ d ∧ d ≤ daysInMonth y m then
          some ⟨y, m, d⟩
        else none
      | _, _, _ => none
    else none
  | _ => none

/-- `"%H:%M"` wall-clock part of `strptime`, returning `(hour, minute)`. -/
def parseTime (s : String) : Option (Nat × Nat) :=
  match chSplitOn ':' s.data with
  | [hs, ms] =>
    if 1 ≤ hs.length ∧ hs.length ≤ 2 ∧ 1 ≤ ms.length ∧ ms.length ≤ 2 then
      match digitsVal hs, digitsVal ms with
      | some h, some mi => if h ≤ 23 ∧ mi ≤ 59 then some (h, mi) else none
      | _, _ => none
    else none
  | _ => none

/-- `datetime.strptime(f"{entry_date} {entry_time}", "%Y-%m-%d %H:%M")` as used
by the submission handler, split into its date and time halves. -/
def parseSubmitDT (ds ts : String) : Option DateTime :=
  match parseDate ds, parseTime ts with
  | some d, some t => some ⟨d.year, d.month, d.day, t.1, t.2⟩
  | _, _ => none

/-- Two-digit zero-padded rendering used by `strftime`. -/
def pad2 (n : Nat) : String :=
  if n < 10 then "0" ++ toString n else toString n

/-- `strftime('%Y-%m-%d')` (years in the store come from four-digit input). -/
def renderDate (d : Date) : String :=
  toString d.year ++ "-" ++ pad2 d.month ++ "-" ++ pad2 d.day

/-- `strftime("%Y-%m-%d %H:%M:%S")`; seconds are always zero because the
submission parse format carries none. -/
def renderDateTime (a : DateTime) : String :=
  renderDate a.dateOf ++ " " ++ pad2 a.hour ++ ":" ++ pad2 a.minute ++ ":00"

/-- Display timestamp of an entry.  Entries reaching the display path always
carry a datetime; the `none` branch only keeps the function total. -/
def renderDTOpt : Option DateTime → String
  | some a => renderDateTime a
  | none => ""

/-! ### Data model -/

/-- A submission-log entry: the payload dictionary sent by the worker page.
The `'datetime'` key that `handle_submit_output` adds to the dictionary is
modelled by the dedicated `dt` field; every other key stays in `fields`. -/
structure Entry where
  dt : Option DateTime
  fields : List (String × PyVal)
deriving DecidableEq

/-- `entry.get(k)` on the payload part of an entry. -/
def Entry.get (e : Entry) (k : String) : Option PyVal :=
  dlookup e.fields k

/-- One row of an uploaded machine plan.  `upload_plan` writes the synthesized
`'line_id'` and `'status'` keys into the row dictionary; they are modelled as
dedicated fields, the spreadsheet columns stay in `fields` (pandas delivers
them as strings after `astype(str)`). -/
structure PlanLine where
  fields : List (String × String)
  line_id : String
  status : String
deriving DecidableEq

/-- The display projection `clean_entry` built by `broadcast_data` for one
log entry. -/
structure CleanEntry where
  time_display : String
  worker_name : PyVal
  shift : PyVal
  machine_name : PyVal
  fg_part_no : PyVal
  cable_id : PyVal
  produced_qty : PyVal
  produced_length : PyVal
  qty_produced_hours : PyVal
  t1_terminal_id : PyVal
  t1_apl_no : PyVal
  t1_crimp_height : Option PyVal
  t1_insulation_height : Option PyVal
  t1_crimp_width : Option PyVal
  t1_insulation_width : Option PyVal
  t1_pull_force : Option PyVal
  t2_terminal_id : PyVal
  t2_apl_no : PyVal
  t2_crimp_height : Option PyVal
  t2_insulation_height : Option PyVal
  t2_crimp_width : Option PyVal
  t2_insulation_width : Option PyVal
  t2_pull_force : Option PyVal
deriving DecidableEq

/-- One CSV-export row built by `export_data` (before column formatting). -/
structure ExportRow where
  datetime_obj : DateTime
  shiftCol : PyVal
  workerName : PyVal
  machineName : PyVal
  fgPartNumber : PyVal
  cableIdentification : PyVal
  producedQty : PyVal
  producedLength : PyVal
  qtyProducedHours : PyVal
  t1PartNo : PyVal
  t1AplNo : PyVal
  t1CrimpH : Option PyVal
  t1InsulH : Option PyVal
  t1CrimpW : Option PyVal
  t1InsulW : Option PyVal
  t1PullF : Option PyVal
  t2PartNo : PyVal
  t2AplNo : PyVal
  t2CrimpH : Option PyVal
  t2InsulH : Option PyVal
  t2CrimpW : Option PyVal
  t2InsulW : Option PyVal
  t2PullF : Option PyVal
deriving DecidableEq

/-- The dashboard snapshot assembled by `broadcast_data`. -/
structure Snapshot where
  log : List CleanEntry
  chart_data : List (PyVal × Int)
  machines : List String
  initial_stock : List (String × PyVal)
deriving DecidableEq

/-- Audience of a Socket.IO `emit`. -/
inductive Dest where
  | broadcast
  | toRoom (r : String)
  | toSid (s : String)
deriving DecidableEq

/-- One outbound Socket.IO message produced by a handler. -/
inductive Emit where
  | updateDashboard (snap : Snapshot)
  | submissionResult (sid : String) (success : Bool) (reason : Option String)
  | updateWorkerPlan (dest : Dest) (plan : List PlanLine) (machineName : String)
  | updateMachineStatus (online : List String)
  | joinConfirm (sid : String) (success : Bool) (machineName : Option String)
  | liveMessage (room : String) (message : String)
  | messageSentConfirm (sid : String) (success : Bool) (machineName : String)
deriving DecidableEq

/-- The module-level mutable state: `SUBMISSION_LOG`, `MACHINE_PLANS`,
`SID_TO_MACHINE`, the Socket.IO room memberships (kept by the framework), and
`INITIAL_CABLE_STOCK`. -/
structure ServerState where
  submissionLog : List Entry
  machinePlans : List (String × List PlanLine)
  sidToMachine : List (String × String)
  rooms : List (String × List String)
  stock : List (String × PyVal)
deriving DecidableEq

/-- Server state at process start (an absent/empty stock file). -/
def initialState : ServerState := ⟨[], [], [], [], []⟩

/-! ### Submission store -/

/-- The date-filter predicate of `get_data_for_date`:
`entry.get('datetime') and entry['datetime'].date() == filter_date`
(a datetime object is always truthy). -/
def entryMatchesDate (e : Entry) (fd : Date) : Bool :=
  match e.dt with
  | some dtv => decide (dtv.dateOf = fd)
  | none => false

/-- Sort key of an entry, `x['datetime']` (the default is never reached on the
filtered list, every kept entry has a datetime). -/
def entryDT (e : Entry) : DateTime :=
  e.dt.getD dtMin

/-- Descending-timestamp order used for the dashboard log
(`sort(key=lambda x: x['datetime'], reverse=True)`).  Python's sort is stable;
`insertionSort` may order entries with identical timestamps differently, which
no claim observes. -/
def entryDescLe (a b : Entry) : Prop :=
  natLexLe (entryDT b).parts (entryDT a).parts = true

instance : DecidableRel entryDescLe := fun _ _ =>
  inferInstanceAs (Decidable (_ = true))

/-- `get_data_for_date(date_str)` over a given submission log: no or falsy
date means no filter, an unparseable date means no filter, otherwise keep the
matching-date entries sorted newest first. -/
def get_data_for_date (log : List Entry) (dateStr : Option String) : List Entry :=
  match dateStr with
  | none => log
  | some s =>
    if s = "" then log
    else
      match parseDate s with
      | none => log
      | some fd =>
        List.insertionSort entryDescLe (log.filter fun e => entryMatchesDate e fd)

/-! ### Aggregation engine -/

/-- The ten terminal-quality metric names whose manual/measured variants the
server merges. -/
def metricBases : List String :=
  ["t1_crimp_height", "t1_insulation_height", "t1_crimp_width",
   "t1_insulation_width", "t1_pull_force",
   "t2_crimp_height", "t2_insulation_height", "t2_crimp_width",
   "t2_insulation_width", "t2_pull_force"]

/-- The repeated merge
`entry.get(base + '_manual') or entry.get(base + '_measured')` applied to one
terminal metric. -/
def resolveMetric (e : Entry) (base : String) : Option PyVal :=
  pyOr (e.get (base ++ "_manual")) (e.get (base ++ "_measured"))

/-- The `clean_entry` dictionary built for each displayed log entry. -/
def mkCleanEntry (e : Entry) : CleanEntry where
  time_display := renderDTOpt e.dt
  worker_name := (e.get "operator_name").getD (.vStr "N/A")
  shift := (e.get "shift").getD (.vStr "N/A")
  machine_name := (e.get "machine_name").getD (.vStr "N/A")
  fg_part_no := (e.get "fg_part_no").getD (.vStr "N/A")
  cable_id := (e.get "cable_id").getD (.vStr "N/A")
  produced_qty := (e.get "produced_qty").getD (.vInt 0)
  produced_length := (e.get "produced_length").getD (.vInt 0)
  qty_produced_hours := (e.get "qty_produced_hours").getD (.vInt 0)
  t1_terminal_id := (e.get "t1_terminal_id").getD (.vStr "")
  t1_apl_no := (e.get "t1_apl_no").getD (.vStr "")
  t1_crimp_height := resolveMetric e "t1_crimp_height"
  t1_insulation_height := resolveMetric e "t1_insulation_height"
  t1_crimp_width := resolveMetric e "t1_crimp_width"
  t1_insulation_width := resolveMetric e "t1_insulation_width"
  t1_pull_force := resolveMetric e "t1_pull_force"
  t2_terminal_id := (e.get "t2_terminal_id").getD (.vStr "")
  t2_apl_no := (e.get "t2_apl_no").getD (.vStr "")
  t2_crimp_height := resolveMetric e "t2_crimp_height"
  t2_insulation_height := resolveMetric e "t2_insulation_height"
  t2_crimp_width := resolveMetric e "t2_crimp_width"
  t2_insulation_width := resolveMetric e "t2_insulation_width"
  t2_pull_force := resolveMetric e "t2_pull_force"

/-- Terminal-metric projection of a displayed entry, by metric name. -/
def cleanMetric (c : CleanEntry) (base : String) : Option PyVal :=
  if base = "t1_crimp_height" then c.t1_crimp_height
  else if base = "t1_insulation_height" then c.t1_insulation_height
  else if base = "t1_crimp_width" then c.t1_crimp_width
  else if base = "t1_insulation_width" then c.t1_insulation_width
  else if base = "t1_pull_force" then c.t1_pull_force
  else if base = "t2_crimp_height" then c.t2_crimp_height
  else if base = "t2_insulation_height" then c.t2_insulation_height
  else if base = "t2_crimp_width" then c.t2_crimp_width
  else if base = "t2_insulation_width" then c.t2_insulation_width
  else if base = "t2_pull_force" then c.t2_pull_force
  else none

/-- Python `int(x)` on a string: optional surrounding whitespace and sign,
then digits (`ValueError` otherwise, modelled as `none`). -/
def parseIntPy (s : String) : Option Int :=
  let t := s.trim
  if t.startsWith "-" then (digitsVal (t.drop 1).data).map (fun n => -(n : Int))
  else if t.startsWith "+" then (digitsVal (t.drop 1).data).map (fun n => (n : Int))
  else (digitsVal t.data).map (fun n => (n : Int))

/-- Per-entry chart contribution:
`int(entry.get('produced_qty', 0))` with `ValueError`/`TypeError` giving 0. -/
def qtyOf (e : Entry) : Int :=
  match e.get "produced_qty" with
  | none => 0
  | some (.vInt n) => n
  | some (.vStr s) => (parseIntPy s).getD 0

/-- Chart grouping key, `entry.get('machine_name', 'UNKNOWN')`. -/
def machineKey (e : Entry) : PyVal :=
  (e.get "machine_name").getD (.vStr "UNKNOWN")

/-- `machine_qty_totals[k] += q` on a `defaultdict(int)`: update the existing
binding in place or append a fresh one (Python dicts keep insertion order). -/
def bumpTotals : List (PyVal × Int) → PyVal → Int → List (PyVal × Int)
  | [], k, q => [(k, q)]
  | (k', v) :: rest, k, q =>
    if k' = k then (k', v + q) :: rest else (k', v) :: bumpTotals rest k q

/-- The per-machine quantity roll-up accumulated over the displayed entries;
`chart_data` lists exactly these `(machine, total_qty)` pairs. -/
def machineQtyTotals (entries : List Entry) : List (PyVal × Int) :=
  entries.foldl (fun d e => bumpTotals d (machineKey e) (qtyOf e)) []

/-- Total of one machine in the roll-up (0 when the machine has no entries). -/
def totalFor (d : List (PyVal × Int)) (m : PyVal) : Int :=
  (dlookup d m).getD 0

/-- Lexicographic string order (Python compares strings by code point). -/
def strLe (a b : String) : Prop :=
  natLexLe (a.data.map Char.toNat) (b.data.map Char.toNat) = true

instance : DecidableRel strLe := fun _ _ =>
  inferInstanceAs (Decidable (_ = true))

/-- The snapshot `broadcast_data(date_str)` assembles and broadcasts: a falsy
date filter defaults to the current date (`today`), then the date-filtered
log is projected for display, rolled up per machine, and combined with the
sorted plan-registry machine names and the stock table. -/
def broadcast_data (today : String) (st : ServerState) (dateStr : Option String) : Snapshot :=
  let ds : String :=
    match dateStr with
    | none => today
    | some s => if s = "" then today else s
  let logToSend := get_data_for_date st.submissionLog (some ds)
  { log := logToSend.map mkCleanEntry
    chart_data := machineQtyTotals logToSend
    machines := List.insertionSort strLe (st.machinePlans.map Prod.fst)
    initial_stock := st.stock }

/-! ### CSV export -/

/-- One export row for an entry that carries a datetime. -/
def mkExportRowCore (e : Entry) (dtv : DateTime) : ExportRow where
  datetime_obj := dtv
  shiftCol := (e.get "shift").getD (.vStr "")
  workerName := (e.get "operator_name").getD (.vStr "")
  machineName := (e.get "machine_name").getD (.vStr "")
  fgPartNumber := (e.get "fg_part_no").getD (.vStr "")
  cableIdentification := (e.get "cable_id").getD (.vStr "")
  producedQty := (e.get "produced_qty").getD (.vInt 0)
  producedLength := (e.get "produced_length").getD (.vInt 0)
  qtyProducedHours := (e.get "qty_produced_hours").getD (.vInt 0)
  t1PartNo := (e.get "t1_terminal_id").getD (.vStr "")
  t1AplNo := (e.get "t1_apl_no").getD (.vStr "")
  t1CrimpH := resolveMetric e "t1_crimp_height"
  t1InsulH := resolveMetric e "t1_insulation_height"
  t1CrimpW := resolveMetric e "t1_crimp_width"
  t1InsulW := resolveMetric e "t1_insulation_width"
  t1PullF := resolveMetric e "t1_pull_force"
  t2PartNo := (e.get "t2_terminal_id").getD (.vStr "")
  t2AplNo := (e.get "t2_apl_no").getD (.vStr "")
  t2CrimpH := resolveMetric e "t2_crimp_height"
  t2InsulH := resolveMetric e "t2_insulation_height"
  t2CrimpW := resolveMetric e "t2_crimp_width"
  t2InsulW := resolveMetric e "t2_insulation_width"
  t2PullF := resolveMetric e "t2_pull_force"

/-- Terminal-metric projection of an export row, by metric name. -/
def exportMetric (r : ExportRow) (base : String) : Option PyVal :=
  if base = "t1_crimp_height" then r.t1CrimpH
  else if base = "t1_insulation_height" then r.t1InsulH
  else if base = "t1_crimp_width" then r.t1CrimpW
  else if base = "t1_insulation_width" then r.t1InsulW
  else if base = "t1_pull_force" then r.t1PullF
  else if base = "t2_crimp_height" then r.t2CrimpH
  else if base = "t2_insulation_height" then r.t2InsulH
  else if base = "t2_crimp_width" then r.t2CrimpW
  else if base = "t2_insulation_width" then r.t2InsulW
  else if base = "t2_pull_force" then r.t2PullF
  else none

/-- Ascending-timestamp order used by the export
(`sorted(SUBMISSION_LOG, key=lambda x: x.get('datetime', datetime.min))`). -/
def entryAscLe (a b : Entry) : Prop :=
  natLexLe (entryDT a).parts (entryDT b).parts = true

instance : DecidableRel entryAscLe := fun _ _ =>
  inferInstanceAs (Decidable (_ = true))

/-- The rows of `export_data`: the log sorted ascending by timestamp, entries
without a datetime skipped. -/
def export_rows (log : List Entry) : List ExportRow :=
  (List.insertionSort entryAscLe log).filterMap fun e =>
    match e.dt with
    | some dtv => some (mkExportRowCore e dtv)
    | none => none

/-! ### Presence tracker -/

/-- The deduplicated online-machine list sent by `broadcast_online_status`
(`list(set(SID_TO_MACHINE.values()))`; the Python set iterates in an
unspecified order, modelled as first-occurrence order). -/
def onlineList (st : ServerState) : List String :=
  (st.sidToMachine.map Prod.snd).eraseDups

/-- `target_machine in SID_TO_MACHINE.values()`, the online test used for
direct messages. -/
def isOnline (st : ServerState) (m : String) : Bool :=
  (st.sidToMachine.map Prod.snd).contains m

/-- `join_room`: Socket.IO adds the connection to the named room (a set). -/
def roomJoin (rooms : List (String × List String)) (sid room : String) :
    List (String × List String) :=
  let cur := (dlookup rooms sid).getD []
  dset rooms sid (if cur.contains room then cur else cur ++ [room])

/-- Connections that a message emitted to `room` reaches. -/
def messageRecipients (st : ServerState) (room : String) : List String :=
  (st.rooms.filter fun p => p.2.contains room).map Prod.fst

/-- Rooms the connection `sid` is currently a member of. -/
def roomsOf (st : ServerState) (sid : String) : List String :=
  (dlookup st.rooms sid).getD []

/-! ### Socket.IO event handlers -/

/-- `handle_submit_output(data)`: parse the entry timestamp from the
`entry_date`/`entry_time` strings, append the entry to the submission log,
broadcast the dashboard for the entry's date, and acknowledge the sender; a
missing field (`KeyError`) or malformed date/time (`ValueError`) leaves the
log untouched and reports failure to the sender only.  The Python reason
strings carry the exception text; only their fixed prefixes are modelled. -/
def handle_submit_output (today : String) (st : ServerState) (sid : String)
    (data : List (String × PyVal)) : ServerState × List Emit :=
  match dlookup data "entry_date", dlookup data "entry_time" with
  | some dv, some tv =>
    match parseSubmitDT (pyStrOf dv) (pyStrOf tv) with
    | some dtv =>
      let st' := { st with submissionLog := st.submissionLog ++ [{ dt := some dtv, fields := data }] }
      (st', [.updateDashboard (broadcast_data today st' (some (renderDate dtv.dateOf))),
             .submissionResult sid true none])
    | none => (st, [.submissionResult sid false (some "Invalid data format")])
  | _, _ => (st, [.submissionResult sid false (some "Missing data field")])

/-- `handle_join_machine_room(data)`: a falsy machine name is refused with a
failure confirm; otherwise record/overwrite the presence mapping, join the
room, broadcast the online list, send that machine's current plan and a
success confirm to the joining connection only. -/
def handle_join_machine_room (st : ServerState) (sid : String)
    (machineName : Option String) : ServerState × List Emit :=
  match machineName with
  | none => (st, [.joinConfirm sid false none])
  | some m =>
    if m = "" then (st, [.joinConfirm sid false none])
    else
      let st' := { st with
        sidToMachine := dset st.sidToMachine sid m
        rooms := roomJoin st.rooms sid m }
      (st', [.updateMachineStatus (onlineList st'),
             .updateWorkerPlan (.toSid sid) ((dlookup st.machinePlans m).getD []) m,
             .joinConfirm sid true (some m)])

/-- `handle_mark_plan_complete(data)`: nothing happens for a falsy line id or
machine name, or an unregistered machine; otherwise the first plan line with
the given id (if any) is flipped to `completed` and the (possibly unchanged)
plan is emitted to the machine's room. -/
def markFirst (plan : List PlanLine) (lineId : String) : List PlanLine :=
  match plan with
  | [] => []
  | item :: rest =>
    if item.line_id = lineId then { item with status := "completed" } :: rest
    else item :: markFirst rest lineId

def handle_mark_plan_complete (st : ServerState) (lineId machineName : String) :
    ServerState × List Emit :=
  if lineId = "" ∨ machineName = "" then (st, [])
  else
    match dlookup st.machinePlans machineName with
    | none => (st, [])
    | some plan =>
      let plan2 := markFirst plan lineId
      ({ st with machinePlans := dset st.machinePlans machineName plan2 },
       [.updateWorkerPlan (.toRoom machineName) plan2 machineName])

/-- `handle_send_live_message(data)`: deliver to the target machine's room and
confirm success iff some connection currently maps to that machine, otherwise
confirm failure to the sender only. -/
def handle_send_live_message (st : ServerState) (sid : String)
    (targetMachine messageText : String) : ServerState × List Emit :=
  if targetMachine = "" ∨ messageText = "" then
    (st, [.messageSentConfirm sid false targetMachine])
  else if isOnline st targetMachine then
    (st, [.liveMessage targetMachine messageText,
          .messageSentConfirm sid true targetMachine])
  else
    (st, [.messageSentConfirm sid false targetMachine])

/-- `handle_request_dashboard_data(data)`: recompute and push the snapshot for
the requested date without touching any store. -/
def handle_request_dashboard_data (today : String) (st : ServerState)
    (dateFilter : Option String) : ServerState × List Emit :=
  (st, [.updateDashboard (broadcast_data today st dateFilter)])

/-- `handle_disconnect()`: drop the presence mapping if present and broadcast
the online list; Socket.IO itself removes the dead connection from all rooms. -/
def handle_disconnect (st : ServerState) (sid : String) : ServerState × List Emit :=
  let stR := { st with rooms := dremove st.rooms sid }
  match dlookup st.sidToMachine sid with
  | some _ =>
    let st' := { stR with sidToMachine := dremove st.sidToMachine sid }
    (st', [.updateMachineStatus (onlineList st')])
  | none => (stR, [])

/-! ### Plan uploads -/

/-- The processed plan of `upload_plan`: the external tabular parser's rows
(capped by `df.head(10)`), each given the synthesized
`line_id = f"{target_machine}_{i+1}"` and status `pending`. -/
def processPlanRows (m : String) (rows : List (List (String × String))) :
    List PlanLine :=
  (rows.take 10).enum.map fun p =>
    { fields := p.2, line_id := m ++ "_" ++ toString (p.1 + 1), status := "pending" }

/-- The `upload_plan` route body after the external spreadsheet parser has
produced the row dictionaries: store the processed plan (wholesale replacing
any previous plan of that machine), push it to the machine's room and refresh
the dashboard for the current date. -/
def upload_plan (today : String) (st : ServerState) (m : String)
    (rows : List (List (String × String))) : ServerState × List Emit :=
  let plan := processPlanRows m rows
  let st' := { st with machinePlans := dset st.machinePlans m plan }
  (st', [.updateWorkerPlan (.toRoom m) plan m,
         .updateDashboard (broadcast_data today st' (some today))])

/-! ### Presence event sequences -/

/-- The events that touch the presence tracker and the room table (no other
handler reads or writes `SID_TO_MACHINE` or the room memberships). -/
inductive PEvent where
  | join (sid machineName : String)
  | disconnect (sid : String)
deriving DecidableEq

def applyPEvent (st : ServerState) : PEvent → ServerState
  | .join sid m => (handle_join_machine_room st sid (some m)).1
  | .disconnect sid => (handle_disconnect st sid).1

def applyPEvents (evs : List PEvent) (st : ServerState) : ServerState :=
  evs.foldl applyPEvent st

/-- No event in the sequence disconnects connection `c`. -/
def noDisconnectOf (c : String) (evs : List PEvent) : Prop :=
  ∀ e ∈ evs, e ≠ PEvent.disconnect c

/-! ### Dictionary lemmas -/

theorem dlookup_dset_self {α β : Type} [DecidableEq α]
    (d : List (α × β)) (k : α) (v : β) : dlookup (dset d k v) k = some v := by
  induction d with
  | nil => simp [dset, dlookup]
  | cons p rest ih =>
    obtain ⟨k', v'⟩ := p
    by_cases h : k' = k
    · simp [dset, dlookup, h]
    · simp [dset, dlookup, h, ih]

theorem dlookup_dset_ne {α β : Type} [DecidableEq α]
    (d : List (α × β)) (k k' : α) (v : β) (h : k ≠ k') :
    dlookup (dset d k v) k' = dlookup d k' := by
  induction d with
  | nil => simp [dset, dlookup, h]
  | cons p rest ih =>
    obtain ⟨k0, v0⟩ := p
    by_cases h0 : k0 = k
    · subst h0
      simp [dset, dlookup, h]
    · simp [dset, dlookup, h0, ih]

theorem dset_eq_self {α β : Type} [DecidableEq α]
    (d : List (α × β)) (k : α) (v : β) (h : dlookup d k = some v) :
    dset d k v = d := by
  induction d with
  | nil => simp [dlookup] at h
  | cons p rest ih =>
    obtain ⟨k0, v0⟩ := p
    by_cases h0 : k0 = k
    · simp [dlookup, h0] at h
      simp [dset, h0, h]
    · simp [dlookup, h0] at h
      simp [dset, h0, ih h]

theorem dlookup_dremove_ne {α β : Type} [DecidableEq α]
    (d : List (α × β)) (k k' : α) (h : k' ≠ k) :
    dlookup (dremove d k) k' = dlookup d k' := by
  induction d with
  | nil => simp [dremove]
  | cons p rest ih =>
    obtain ⟨k0, v0⟩ := p
    by_cases h0 : k0 = k
    · subst h0
      have hne : k0 ≠ k' := fun hh => h hh.symm
      simp [dremove, dlookup, hne]
    · simp [dremove, dlookup, h0, ih]

theorem mem_of_dlookup {α β : Type} [DecidableEq α]
    {d : List (α × β)} {k : α} {v : β} (h : dlookup d k = some v) : (k, v) ∈ d := by
  induction d with
  | nil => simp [dlookup] at h
  | cons p rest ih =>
    obtain ⟨k0, v0⟩ := p
    by_cases h0 : k0 = k
    · subst h0
      simp [dlookup] at h
      simp [h]
    · simp [dlookup, h0] at h
      simp [ih h]

theorem dlookup_of_mem {α β : Type} [DecidableEq α]
    {d : List (α × β)} {k : α} {v : β} (hnd : (d.map Prod.fst).Nodup)
    (hm : (k, v) ∈ d) : dlookup d k = some v := by
  induction d with
  | nil => cases hm
  | cons p rest ih =>
    obtain ⟨k0, v0⟩ := p
    rw [List.map_cons, List.nodup_cons] at hnd
    rcases List.mem_cons.mp hm with h | h
    · injection h with h1 h2
      subst h1
      subst h2
      simp [dlookup]
    · have hk0 : k0 ≠ k := by
        rintro rfl
        exact hnd.1 (List.mem_map.mpr ⟨(k0, v), h, rfl⟩)
      rw [dlookup, if_neg hk0]
      exact ih hnd.2 h

/-- The keys after a dict write: unchanged if the key was present, appended
otherwise. -/
theorem fst_dset {α β : Type} [DecidableEq α] (d : List (α × β)) (k : α) (v : β) :
    (dset d k v).map Prod.fst =
      if k ∈ d.map Prod.fst then d.map Prod.fst else d.map Prod.fst ++ [k] := by
  induction d with
  | nil => simp [dset]
  | cons p rest ih =>
    obtain ⟨k0, v0⟩ := p
    by_cases h0 : k0 = k
    · subst h0
      simp [dset]
    · have hne : ¬k = k0 := fun hh => h0 hh.symm
      by_cases hk : k ∈ rest.map Prod.fst
      · simp [dset, h0, ih, hk, hne]
      · simp [dset, h0, ih, hk, hne]

theorem fst_dset_nodup {α β : Type} [DecidableEq α]
    {d : List (α × β)} (k : α) (v : β) (hnd : (d.map Prod.fst).Nodup) :
    ((dset d k v).map Prod.fst).Nodup := by
  rw [fst_dset]
  by_cases hk : k ∈ d.map Prod.fst
  · simpa [hk] using hnd
  · simp [hk, List.nodup_append, hnd]

theorem dremove_sublist {α β : Type} [DecidableEq α] (d : List (α × β)) (k : α) :
    List.Sublist (dremove d k) d := by
  induction d with
  | nil => simp [dremove]
  | cons p rest ih =>
    obtain ⟨k0, v0⟩ := p
    by_cases h0 : k0 = k
    · simp [dremove, h0]
    · simpa [dremove, h0] using ih.cons₂ (k0, v0)

theorem fst_dremove_nodup {α β : Type} [DecidableEq α]
    {d : List (α × β)} (k : α) (hnd : (d.map Prod.fst).Nodup) :
    ((dremove d k).map Prod.fst).Nodup :=
  hnd.sublist ((dremove_sublist d k).map Prod.fst)

/-! ### Order lemmas for the sort relations -/

theorem natLexLe_trans : ∀ x y z : List Nat,
    natLexLe x y = true → natLexLe y z = true → natLexLe x z = true := by
  intro x
  induction x with
  | nil => intro y z h1 h2; simp [natLexLe]
  | cons a as ih =>
    intro y z h1 h2
    cases y with
    | nil => simp [natLexLe] at h1
    | cons b bs =>
      cases z with
      | nil => simp [natLexLe] at h2
      | cons c cs =>
        simp only [natLexLe, Bool.or_eq_true, Bool.and_eq_true,
          decide_eq_true_eq] at h1 h2 ⊢
        rcases h1 with h1 | ⟨hab, h1⟩
        · rcases h2 with h2 | ⟨hbc, h2⟩
          · exact Or.inl (by omega)
          · exact Or.inl (by omega)
        · rcases h2 with h2 | ⟨hbc, h2⟩
          · exact Or.inl (by omega)
          · exact Or.inr ⟨by omega, ih bs cs (by simpa [hab] using h1) h2⟩

theorem natLexLe_total : ∀ x y : List Nat,
    natLexLe x y = true ∨ natLexLe y x = true := by
  intro x
  induction x with
  | nil => intro y; exact Or.inl (by simp [natLexLe])
  | cons a as ih =>
    intro y
    cases y with
    | nil => exact Or.inr (by simp [natLexLe])
    | cons b bs =>
      simp only [natLexLe, Bool.or_eq_true, Bool.and_eq_true, decide_eq_true_eq]
      rcases Nat.lt_trichotomy a b with h | h | h
      · exact Or.inl (Or.inl h)
      · rcases ih bs with h2 | h2
        · exact Or.inl (Or.inr ⟨h, h2⟩)
        · exact Or.inr (Or.inr ⟨h.symm, h2⟩)
      · exact Or.inr (Or.inl h)

instance : IsTrans Entry entryDescLe :=
  ⟨fun _ _ _ h1 h2 => natLexLe_trans _ _ _ h2 h1⟩

instance : IsTotal Entry entryDescLe :=
  ⟨fun a b => natLexLe_total (entryDT b).parts (entryDT a).parts⟩

/-! ### Plan registry lemmas -/

theorem markFirst_no_match (plan : List PlanLine) (lineId : String)
    (h : lineId ∉ plan.map PlanLine.line_id) : markFirst plan lineId = plan := by
  induction plan with
  | nil => simp [markFirst]
  | cons item rest ih =>
    rw [List.map_cons, List.mem_cons] at h
    push_neg at h
    have hne : item.line_id ≠ lineId := fun hh => h.1 hh.symm
    rw [markFirst, if_neg hne, ih h.2]

/-! ### Chart roll-up lemmas -/

theorem totalFor_bump (d : List (PyVal × Int)) (k : PyVal) (q : Int) (m : PyVal) :
    totalFor (bumpTotals d k q) m = totalFor d m + (if k = m then q else 0) := by
  induction d with
  | nil =>
    by_cases h : k = m <;> simp [bumpTotals, totalFor, dlookup, h]
  | cons p rest ih =>
    obtain ⟨k0, v0⟩ := p
    by_cases h0 : k0 = k
    · subst h0
      by_cases h : k0 = m <;> simp [bumpTotals, totalFor, dlookup, h]
    · by_cases h : k0 = m
      · subst h
        have hkm : k ≠ k0 := fun hh => h0 hh.symm
        simp [bumpTotals, totalFor, dlookup, h0, hkm]
      · simpa [bumpTotals, totalFor, dlookup, h0, h] using ih

/-! ### Presence lemmas -/

/-- Every reachable presence table has pairwise-distinct connection ids, like
a Python dict. -/
theorem sidToMachine_nodup (evs : List PEvent) :
    ∀ st : ServerState, (st.sidToMachine.map Prod.fst).Nodup →
      ((applyPEvents evs st).sidToMachine.map Prod.fst).Nodup := by
  induction evs with
  | nil => intro st h; simpa [applyPEvents] using h
  | cons ev rest ih =>
    intro st h
    rw [applyPEvents, List.foldl_cons]
    refine ih _ ?_
    cases ev with
    | join sid m =>
      by_cases hm : m = ""
      · simpa [applyPEvent, handle_join_machine_room, hm] using h
      · simpa [applyPEvent, handle_join_machine_room, hm] using
          fst_dset_nodup sid m h
    | disconnect sid =>
      rw [applyPEvent, handle_disconnect]
      cases hl : dlookup st.sidToMachine sid with
      | some m => simpa using fst_dremove_nodup sid h
      | none => simpa using h

/-- On a duplicate-free presence table, a machine appears among the values iff
some connection looks up to it. -/
theorem contains_values_iff {d : List (String × String)}
    (hnd : (d.map Prod.fst).Nodup) (m : String) :
    (d.map Prod.snd).contains m = true ↔ ∃ sid, dlookup d sid = some m := by
  rw [List.contains, List.elem_iff]
  constructor
  · intro h
    obtain ⟨p, hp, hpm⟩ := List.mem_map.mp h
    refine ⟨p.1, ?_⟩
    rw [← hpm]
    exact dlookup_of_mem hnd (by simpa using hp)
  · rintro ⟨sid, hsid⟩
    exact List.mem_map.mpr ⟨(sid, m), mem_of_dlookup hsid, rfl⟩

/-- Room memberships only grow under any event that is not a disconnect of
the connection in question. -/
theorem roomsOf_mono_event (st : ServerState) (ev : PEvent) (c r : String)
    (hev : ev ≠ PEvent.disconnect c) (hr : r ∈ roomsOf st c) :
    r ∈ roomsOf (applyPEvent st ev) c := by
  cases ev with
  | join sid m =>
    by_cases hm : m = ""
    · simpa [applyPEvent, handle_join_machine_room, hm] using hr
    · rw [applyPEvent, handle_join_machine_room]
      simp only [hm, if_false]
      by_cases hsid : sid = c
      · subst hsid
        rw [roomsOf] at hr ⊢
        simp only [roomJoin, dlookup_dset_self, Option.getD_some]
        split
        · exact hr
        · exact List.mem_append_left _ hr
      · rw [roomsOf] at hr ⊢
        simpa [roomJoin, dlookup_dset_ne _ _ _ _ hsid] using hr
  | disconnect sid =>
    have hsid : c ≠ sid := by
      rintro rfl
      exact hev rfl
    rw [applyPEvent, handle_disconnect]
    cases hl : dlookup st.sidToMachine sid with
    | some m =>
      simpa [roomsOf, dlookup_dremove_ne _ _ _ hsid] using hr
    | none =>
      simpa [roomsOf, dlookup_dremove_ne _ _ _ hsid] using hr

theorem roomsOf_mono (evs : List PEvent) :
    ∀ st : ServerState, ∀ c r : String, noDisconnectOf c evs →
      r ∈ roomsOf st c → r ∈ roomsOf (applyPEvents evs st) c := by
  induction evs with
  | nil => intro st c r _ hr; simpa [applyPEvents] using hr
  | cons ev rest ih =>
    intro st c r hnd hr
    rw [applyPEvents, List.foldl_cons]
    refine ih _ c r (fun e he => hnd e (List.mem_cons_of_mem _ he)) ?_
    exact roomsOf_mono_event st ev c r (hnd ev (List.mem_cons_self _ _)) hr

theorem totalFor_fold (entries : List Entry) :
    ∀ (d : List (PyVal × Int)) (m : PyVal),
      totalFor (entries.foldl (fun d e => bumpTotals d (machineKey e) (qtyOf e)) d) m
        = totalFor d m
          + ((entries.filter fun e => decide (machineKey e = m)).map qtyOf).sum := by
  induction entries with
  | nil => intro d m; simp
  | cons e rest ih =>
    intro d m
    rw [List.foldl_cons, ih]
    rw [totalFor_bump]
    by_cases h : machineKey e = m
    · simp [List.filter_cons, h]
      omega
    · simp [List.filter_cons, h]

/-- A connection is a recipient of every room it is a member of. -/
theorem mem_messageRecipients {st : ServerState} {c r : String}
    (h : r ∈ roomsOf st c) : c ∈ messageRecipients st r := by
  rw [roomsOf] at h
  cases hl : dlookup st.rooms c with
  | none => rw [hl] at h; cases h
  | some l =>
    rw [hl] at h
    refine List.mem_map.mpr ⟨(c, l), List.mem_filter.mpr ⟨mem_of_dlookup hl, ?_⟩, rfl⟩
    exact List.elem_iff.mpr (by simpa using h)

/-- The dashboard/export metric projections agree with the per-metric merge. -/
theorem cleanMetric_mk (e : Entry) (base : String) (hb : base ∈ metricBases) :
    cleanMetric (mkCleanEntry e) base = resolveMetric e base := by
  simp only [metricBases, List.mem_cons, List.not_mem_nil, or_false] at hb
  rcases hb with rfl | rfl | rfl | rfl | rfl | rfl | rfl | rfl | rfl | rfl <;> rfl

theorem exportMetric_mk (e : Entry) (dtv : DateTime) (base : String)
    (hb : base ∈ metricBases) :
    exportMetric (mkExportRowCore e dtv) base = resolveMetric e base := by
  simp only [metricBases, List.mem_cons, List.not_mem_nil, or_false] at hb
  rcases hb with rfl | rfl | rfl | rfl | rfl | rfl | rfl | rfl | rfl | rfl <;> rfl

/-! ### Concrete fixtures used by witnesses and counterexamples -/

/-- A submission payload whose produced quantity, length and hours are all
zero but whose date and time strings are well formed. -/
def subData0 : List (String × PyVal) :=
  [("entry_date", .vStr "2024-05-01"), ("entry_time", .vStr "09:00"),
   ("machine_name", .vStr "M1"), ("produced_qty", .vInt 0),
   ("produced_length", .vInt 0), ("qty_produced_hours", .vInt 0)]

/-- A fully valid submission payload. -/
def subData1 : List (String × PyVal) :=
  [("entry_date", .vStr "2024-05-01"), ("entry_time", .vStr "09:00"),
   ("machine_name", .vStr "M1"), ("produced_qty", .vInt 10),
   ("produced_length", .vInt 5), ("qty_produced_hours", .vInt 1)]

/-- An entry whose manual crimp height is present but zero (falsy). -/
def e2bad : Entry :=
  ⟨none, [("t1_crimp_height_manual", .vInt 0), ("t1_crimp_height_measured", .vInt 5)]⟩

/-- An entry whose manual crimp height is present and truthy. -/
def e2good : Entry :=
  ⟨none, [("t1_crimp_height_manual", .vInt 7), ("t1_crimp_height_measured", .vInt 5)]⟩

def eA : Entry :=
  ⟨some ⟨2024, 5, 1, 9, 0⟩, [("machine_name", .vStr "M1"), ("produced_qty", .vInt 10)]⟩

def eB : Entry :=
  ⟨some ⟨2024, 5, 1, 8, 0⟩, [("machine_name", .vStr "M1"), ("produced_qty", .vInt 15)]⟩

/-- An entry with no timestamp at all. -/
def eC : Entry := ⟨none, []⟩

def eD : Entry := ⟨some ⟨2024, 4, 30, 7, 0⟩, []⟩

def log3 : List Entry := [eB, eC, eA, eD]

def planM1 : List PlanLine :=
  [{ fields := [("FG", "X")], line_id := "M1_1", status := "pending" }]

def st4 : ServerState := { initialState with machinePlans := [("M1", planM1)] }

def planRows3 : List (List (String × String)) :=
  [[("FG", "A")], [("FG", "B")], [("FG", "C")]]

def st7 : ServerState := { initialState with submissionLog := [eA, eB] }

/-! ### Claim C1 -/

/-- C1 is false on the code: `handle_submit_output` never checks the
positivity of quantity, length or hours.  A payload whose produced quantity
(and length and hours) is 0 — hence `≤ 0` — but whose date and time strings
are well formed is appended (the store grows), a dashboard broadcast is
emitted, and the sender receives a success acknowledgement, not a failure
reason. -/
theorem c1_counterexample :
    dlookup subData0 "produced_qty" = some (PyVal.vInt 0) ∧
    dlookup subData0 "produced_length" = some (PyVal.vInt 0) ∧
    dlookup subData0 "qty_produced_hours" = some (PyVal.vInt 0) ∧
    (handle_submit_output "2024-05-01" initialState "sid1" subData0).1.submissionLog.length
      = initialState.submissionLog.length + 1 ∧
    (handle_submit_output "2024-05-01" initialState "sid1" subData0).2 =
      [Emit.updateDashboard (broadcast_data "2024-05-01"
          { initialState with
              submissionLog := [{ dt := some ⟨2024, 5, 1, 9, 0⟩, fields := subData0 }] }
          (some "2024-05-01")),
       Emit.submissionResult "sid1" true none] := by
  decide

/-- C1 (amended): the submission handler validates only the presence and
format of `entry_date`/`entry_time`.  Any payload whose combined date/time
parses — regardless of the produced quantity, length or hours, including
non-positive values — is appended to the submission log, a dashboard snapshot
for the entry's date is broadcast, and a success acknowledgement goes to the
sender; a payload missing `entry_date` leaves the store unchanged and sends a
failure reason to the originating connection only (no broadcast). -/
theorem c1_submit_no_positivity_check (today : String) (st : ServerState)
    (sid : String) (data : List (String × PyVal)) (dv tv : PyVal) (dtv : DateTime)
    (hd : dlookup data "entry_date" = some dv)
    (ht : dlookup data "entry_time" = some tv)
    (hp : parseSubmitDT (pyStrOf dv) (pyStrOf tv) = some dtv) :
    ((handle_submit_output today st sid data).1.submissionLog
        = st.submissionLog ++ [{ dt := some dtv, fields := data }]) ∧
    ((handle_submit_output today st sid data).2
        = [Emit.updateDashboard (broadcast_data today
              { st with submissionLog := st.submissionLog ++ [{ dt := some dtv, fields := data }] }
              (some (renderDate dtv.dateOf))),
           Emit.submissionResult sid true none]) ∧
    (∀ data2 : List (String × PyVal), dlookup data2 "entry_date" = none →
      (handle_submit_output today st sid data2).1 = st ∧
      (handle_submit_output today st sid data2).2
        = [Emit.submissionResult sid false (some "Missing data field")]) := by
  refine ⟨?_, ?_, ?_⟩
  · simp [handle_submit_output, hd, ht, hp]
  · simp [handle_submit_output, hd, ht, hp]
  · intro data2 h2
    constructor <;> simp [handle_submit_output, h2]

/-- Witness instantiating C1's amended theorem on a concrete valid payload. -/
theorem c1_submit_no_positivity_check_witness :
    dlookup subData1 "entry_date" = some (PyVal.vStr "2024-05-01") ∧
    dlookup subData1 "entry_time" = some (PyVal.vStr "09:00") ∧
    parseSubmitDT (pyStrOf (PyVal.vStr "2024-05-01")) (pyStrOf (PyVal.vStr "09:00"))
      = some ⟨2024, 5, 1, 9, 0⟩ ∧
    (handle_submit_output "2024-05-01" initialState "s9" subData1).1.submissionLog
      = initialState.submissionLog ++ [{ dt := some ⟨2024, 5, 1, 9, 0⟩, fields := subData1 }] :=
  ⟨by decide, by decide, by decide,
   (c1_submit_no_positivity_check "2024-05-01" initialState "s9" subData1
      (PyVal.vStr "2024-05-01") (PyVal.vStr "09:00") ⟨2024, 5, 1, 9, 0⟩
      (by decide) (by decide) (by decide)).1⟩

/-! ### Claim C2 -/

/-- C2 is false on the code: the merge is Python's `manual or measured`, so a
manual value that is present but falsy does not override.  Here the manual
crimp height 0 and the measured value 5 are both present, yet the dashboard
view and the export row resolve to the measured 5, not the manual 0. -/
theorem c2_counterexample :
    Entry.get e2bad "t1_crimp_height_manual" = some (PyVal.vInt 0) ∧
    Entry.get e2bad "t1_crimp_height_measured" = some (PyVal.vInt 5) ∧
    (mkCleanEntry e2bad).t1_crimp_height = some (PyVal.vInt 5) ∧
    ¬(mkCleanEntry e2bad).t1_crimp_height = some (PyVal.vInt 0) ∧
    (mkExportRowCore e2bad dtMin).t1CrimpH = some (PyVal.vInt 5) := by
  decide

/-- C2 (amended): for each of the ten terminal metrics, whenever the manual
value is present and truthy (non-zero, non-empty) it overrides the measured
value: the merged metric, its dashboard-view projection and its export-row
projection all equal the manual value.  (A present but falsy manual value
falls back to the measured one, as the counterexample shows.) -/
theorem c2_manual_overrides_measured (e : Entry) (base : String) (v : PyVal)
    (hb : base ∈ metricBases)
    (hm : e.get (base ++ "_manual") = some v) (ht : v.truthy = true) :
    resolveMetric e base = some v ∧
    cleanMetric (mkCleanEntry e) base = some v ∧
    ∀ dtv : DateTime, exportMetric (mkExportRowCore e dtv) base = some v := by
  have hres : resolveMetric e base = some v := by
    rw [resolveMetric, hm]
    simp [pyOr, ht]
  exact ⟨hres, by rw [cleanMetric_mk e base hb, hres],
         fun dtv => by rw [exportMetric_mk e dtv base hb, hres]⟩

/-- Witness instantiating C2's amended theorem on a truthy manual value. -/
theorem c2_manual_overrides_measured_witness :
    ("t1_crimp_height" ∈ metricBases) ∧
    Entry.get e2good ("t1_crimp_height" ++ "_manual") = some (PyVal.vInt 7) ∧
    (PyVal.vInt 7).truthy = true ∧
    cleanMetric (mkCleanEntry e2good) "t1_crimp_height" = some (PyVal.vInt 7) :=
  ⟨by decide, by decide, by decide,
   (c2_manual_overrides_measured e2good "t1_crimp_height" (PyVal.vInt 7)
      (by decide) (by decide) (by decide)).2.1⟩

/-! ### Claim C3 -/

/-- C3: for a well-formed `YYYY-MM-DD` date string, `get_data_for_date`
returns exactly the log entries whose timestamp's date component equals the
parsed date (as a permutation of the date filter of the log), sorted
descending by timestamp, and every returned entry carries a timestamp with
that date — entries lacking a timestamp are excluded. -/
theorem c3_query_by_date (log : List Entry) (d : String) (fd : Date)
    (hp : parseDate d = some fd) :
    (get_data_for_date log (some d)).Perm (log.filter fun e => entryMatchesDate e fd) ∧
    List.Sorted entryDescLe (get_data_for_date log (some d)) ∧
    ∀ e ∈ get_data_for_date log (some d), ∃ dtv, e.dt = some dtv ∧ dtv.dateOf = fd := by
  have hne : d ≠ "" := by
    intro h
    rw [h, (by decide : parseDate "" = none)] at hp
    cases hp
  have hunf : get_data_for_date log (some d)
      = List.insertionSort entryDescLe (log.filter fun e => entryMatchesDate e fd) := by
    simp [get_data_for_date, hne, hp]
  refine ⟨?_, ?_, ?_⟩
  · rw [hunf]
    exact List.perm_insertionSort _ _
  · rw [hunf]
    exact List.sorted_insertionSort _ _
  · intro e he
    rw [hunf] at he
    have hmem := (List.perm_insertionSort entryDescLe _).mem_iff.mp he
    have h2 := List.mem_filter.mp hmem
    cases hdt : e.dt with
    | none => simp [entryMatchesDate, hdt] at h2
    | some dtv =>
      have := h2.2
      simp [entryMatchesDate, hdt] at this
      exact ⟨dtv, rfl, this⟩

/-- Witness instantiating C3 on a concrete four-entry log. -/
theorem c3_query_by_date_witness :
    parseDate "2024-05-01" = some ⟨2024, 5, 1⟩ ∧
    ((get_data_for_date log3 (some "2024-05-01")).Perm
        (log3.filter fun e => entryMatchesDate e ⟨2024, 5, 1⟩) ∧
      List.Sorted entryDescLe (get_data_for_date log3 (some "2024-05-01")) ∧
      ∀ e ∈ get_data_for_date log3 (some "2024-05-01"),
        ∃ dtv, e.dt = some dtv ∧ dtv.dateOf = ⟨2024, 5, 1⟩) :=
  ⟨by decide, c3_query_by_date log3 "2024-05-01" ⟨2024, 5, 1⟩ (by decide)⟩

/-! ### Claim C4 -/

/-- C4 is false on the code: `handle_mark_plan_complete` on a known machine
emits `update_worker_plan` to the machine's room even when no plan line
matches the requested line id.  With the one-line plan `M1_1` registered for
`M1`, marking the unknown line `M1_2` leaves the whole state unchanged (the
no-op half of the claim holds) but still broadcasts the unchanged plan —
refuting "no plan broadcast is triggered". -/
theorem c4_counterexample :
    dlookup st4.machinePlans "M1" = some planM1 ∧
    "M1_2" ∉ planM1.map PlanLine.line_id ∧
    (handle_mark_plan_complete st4 "M1_2" "M1").1 = st4 ∧
    (handle_mark_plan_complete st4 "M1_2" "M1").2
      = [Emit.updateWorkerPlan (Dest.toRoom "M1") planM1 "M1"] := by
  decide

/-- C4 (amended): for a machine with a registered plan and a non-falsy line
id not occurring in that plan, `markComplete` leaves the server state
entirely unchanged (every line and every other field), but it still emits the
unchanged plan to the machine's room — one broadcast is triggered. -/
theorem c4_unknown_line_noop_but_broadcast (st : ServerState) (m lineId : String)
    (plan : List PlanLine)
    (h1 : lineId ≠ "") (h2 : m ≠ "") (h3 : dlookup st.machinePlans m = some plan)
    (h4 : lineId ∉ plan.map PlanLine.line_id) :
    (handle_mark_plan_complete st lineId m).1 = st ∧
    (handle_mark_plan_complete st lineId m).2
      = [Emit.updateWorkerPlan (Dest.toRoom m) plan m] := by
  have hcond : ¬(lineId = "" ∨ m = "") := by
    rintro (h | h)
    · exact h1 h
    · exact h2 h
  simp only [handle_mark_plan_complete, if_neg hcond, h3]
  rw [markFirst_no_match plan lineId h4, dset_eq_self st.machinePlans m plan h3]
  exact ⟨rfl, rfl⟩

/-- Witness instantiating C4's amended theorem on the concrete plan. -/
theorem c4_unknown_line_noop_but_broadcast_witness :
    ("M1_2" : String) ≠ "" ∧ ("M1" : String) ≠ "" ∧
    dlookup st4.machinePlans "M1" = some planM1 ∧
    "M1_2" ∉ planM1.map PlanLine.line_id ∧
    (handle_mark_plan_complete st4 "M1_2" "M1").1 = st4 :=
  ⟨by decide, by decide, by decide, by decide,
   (c4_unknown_line_noop_but_broadcast st4 "M1" "M1_2" planM1
      (by decide) (by decide) (by decide) (by decide)).1⟩

/-! ### Claim C5 -/

/-- C5: a malformed (non-`YYYY-MM-DD`) date filter string makes
`get_data_for_date` fail open — it returns the full unfiltered submission log
(the function is total, so no exception surfaces to the caller). -/
theorem c5_malformed_date_fails_open (log : List Entry) (d : String)
    (hp : parseDate d = none) :
    get_data_for_date log (some d) = log := by
  by_cases h : d = ""
  · simp [get_data_for_date, h]
  · simp [get_data_for_date, h, hp]

/-- Witness instantiating C5 on a slash-formatted date string. -/
theorem c5_malformed_date_fails_open_witness :
    parseDate "05/01/2024" = none ∧
    get_data_for_date log3 (some "05/01/2024") = log3 :=
  ⟨by decide, c5_malformed_date_fails_open log3 "05/01/2024" (by decide)⟩

/-! ### Claim C6 -/

/-- C6: `upload_plan` stores at most 10 lines for the target machine, the
`i`-th stored line (1-based) gets the synthesized id `m_i` and status
`pending`, and the registered plan becomes exactly the processed rows — for
every previous registry content, so no line of any old plan survives. -/
theorem c6_replace_plan (today : String) (st : ServerState) (m : String)
    (rows : List (List (String × String))) :
    dlookup (upload_plan today st m rows).1.machinePlans m
      = some (processPlanRows m rows) ∧
    (processPlanRows m rows).length ≤ 10 ∧
    ∀ (i : Nat) (h : i < (processPlanRows m rows).length),
      ((processPlanRows m rows).get ⟨i, h⟩).line_id = m ++ "_" ++ toString (i + 1) ∧
      ((processPlanRows m rows).get ⟨i, h⟩).status = "pending" := by
  refine ⟨?_, ?_, ?_⟩
  · simp only [upload_plan]
    exact dlookup_dset_self st.machinePlans m (processPlanRows m rows)
  · simp only [processPlanRows, List.length_map, List.enum_length, List.length_take]
    omega
  · intro i h
    constructor
    · simp [processPlanRows, List.get_eq_getElem, List.getElem_map, List.getElem_enum]
    · simp [processPlanRows, List.get_eq_getElem, List.getElem_map, List.getElem_enum]

/-- Witness instantiating C6 on a three-row upload for machine `M2`. -/
theorem c6_replace_plan_witness :
    0 < (processPlanRows "M2" planRows3).length ∧
    ((processPlanRows "M2" planRows3).get
        ⟨0, by decide⟩).line_id = "M2_1" ∧
    ((processPlanRows "M2" planRows3).get ⟨0, by decide⟩).status = "pending" :=
  ⟨by decide,
   ((c6_replace_plan "2024-05-01" initialState "M2" planRows3).2.2 0 (by decide)).1,
   ((c6_replace_plan "2024-05-01" initialState "M2" planRows3).2.2 0 (by decide)).2⟩

/-! ### Claim C7 -/

/-- C7: the chart roll-up assigns to each machine the sum of the
`int`-coerced `produced_qty` values of exactly that machine's entries; a
missing quantity contributes zero, a non-numeric string quantity contributes
zero rather than failing; and the concrete scenario of two same-date `M1`
entries with quantities 10 and 15 yields the chart `[(M1, 25)]` in the
broadcast snapshot. -/
theorem c7_chart_totals (entries : List Entry) (m : PyVal) :
    (totalFor (machineQtyTotals entries) m
      = ((entries.filter fun e => decide (machineKey e = m)).map qtyOf).sum) ∧
    (∀ e : Entry, e.get "produced_qty" = none → qtyOf e = 0) ∧
    (∀ (e : Entry) (s : String), e.get "produced_qty" = some (PyVal.vStr s) →
      parseIntPy s = none → qtyOf e = 0) ∧
    (broadcast_data "2024-05-01" st7 (some "2024-05-01")).chart_data
      = [(PyVal.vStr "M1", 25)] := by
  refine ⟨?_, ?_, ?_, by decide⟩
  · have hfold := totalFor_fold entries [] m
    rw [machineQtyTotals]
    rw [hfold]
    simp [totalFor, dlookup]
  · intro e he
    simp [qtyOf, he]
  · intro e s he hs
    simp [qtyOf, he, hs]

/-- Witness instantiating C7 on an entry with no quantity field. -/
theorem c7_chart_totals_witness :
    Entry.get eC "produced_qty" = none ∧ qtyOf eC = 0 :=
  ⟨by decide, (c7_chart_totals [] (PyVal.vStr "x")).2.1 eC (by decide)⟩

/-! ### Claim C8 -/

/-- C8: starting from the empty presence table, after any sequence of
join/disconnect events a machine is online iff at least one live connection
currently maps to it; in particular after `join(c1, M1)`, `join(c2, M1)`,
`leave(c1)` machine `M1` is still online, and after the further `leave(c2)`
it is not. -/
theorem c8_is_online_iff (evs : List PEvent) (m : String) :
    (isOnline (applyPEvents evs initialState) m = true ↔
      ∃ sid, dlookup (applyPEvents evs initialState).sidToMachine sid = some m) ∧
    isOnline (applyPEvents
      [PEvent.join "c1" "M1", PEvent.join "c2" "M1", PEvent.disconnect "c1"]
      initialState) "M1" = true ∧
    isOnline (applyPEvents
      [PEvent.join "c1" "M1", PEvent.join "c2" "M1", PEvent.disconnect "c1",
       PEvent.disconnect "c2"] initialState) "M1" = false := by
  refine ⟨?_, by decide, by decide⟩
  have hnd := sidToMachine_nodup evs initialState (by simp [initialState])
  exact contains_values_iff hnd m

/-! ### Claim C9 -/

/-- C9: recomputing the dashboard view twice for the same requested date with
no intervening mutation yields identical snapshots: the handler leaves the
state untouched, the second emission equals the first, and the log
projection, chart data, machine list and stock table of the two snapshots
coincide. -/
theorem c9_snapshot_idempotent (today : String) (st : ServerState) (d : Option String) :
    (handle_request_dashboard_data today st d).1 = st ∧
    (handle_request_dashboard_data today (handle_request_dashboard_data today st d).1 d).2
      = (handle_request_dashboard_data today st d).2 ∧
    (broadcast_data today (handle_request_dashboard_data today st d).1 d).log
      = (broadcast_data today st d).log ∧
    (broadcast_data today (handle_request_dashboard_data today st d).1 d).chart_data
      = (broadcast_data today st d).chart_data ∧
    (broadcast_data today (handle_request_dashboard_data today st d).1 d).machines
      = (broadcast_data today st d).machines ∧
    (broadcast_data today (handle_request_dashboard_data today st d).1 d).initial_stock
      = (broadcast_data today st d).initial_stock :=
  ⟨rfl, rfl, rfl, rfl, rfl, rfl⟩

/-! ### Claim C10 -/

/-- C10: a connection that joins room `M1` and later joins room `M2` (with no
intervening disconnect of that connection) is recorded in the presence map
for `M2` only, yet remains a member of room `M1` and is still a recipient of
messages delivered to `M1`'s room; and room memberships acquired by a join
are never revoked by any event other than the connection's own disconnect. -/
theorem c10_room_membership_persists (c M1 M2 : String) (evs : List PEvent)
    (h1 : M1 ≠ "") (h2 : M2 ≠ "") (h3 : noDisconnectOf c evs) :
    dlookup (applyPEvents (PEvent.join c M1 :: (evs ++ [PEvent.join c M2]))
        initialState).sidToMachine c = some M2 ∧
    M1 ∈ roomsOf (applyPEvents (PEvent.join c M1 :: (evs ++ [PEvent.join c M2]))
        initialState) c ∧
    c ∈ messageRecipients (applyPEvents (PEvent.join c M1 :: (evs ++ [PEvent.join c M2]))
        initialState) M1 ∧
    (∀ (st0 : ServerState) (evs2 : List PEvent), noDisconnectOf c evs2 →
      ∀ r ∈ roomsOf st0 c, r ∈ roomsOf (applyPEvents evs2 st0) c) := by
  have hsplit : applyPEvents (PEvent.join c M1 :: (evs ++ [PEvent.join c M2])) initialState
      = applyPEvent (applyPEvents evs (applyPEvent initialState (PEvent.join c M1)))
          (PEvent.join c M2) := by
    rw [applyPEvents, List.foldl_cons, List.foldl_append, List.foldl_cons, List.foldl_nil]
    rfl
  have h1room : M1 ∈ roomsOf (applyPEvent initialState (PEvent.join c M1)) c := by
    simp [applyPEvent, handle_join_machine_room, h1, roomsOf, roomJoin,
      initialState, dset, dlookup]
  have hmid : M1 ∈ roomsOf (applyPEvents evs (applyPEvent initialState (PEvent.join c M1))) c :=
    roomsOf_mono evs _ c M1 h3 h1room
  have hfinalrooms : M1 ∈ roomsOf (applyPEvents
      (PEvent.join c M1 :: (evs ++ [PEvent.join c M2])) initialState) c := by
    rw [hsplit]
    exact roomsOf_mono_event _ (PEvent.join c M2) c M1 (by simp) hmid
  refine ⟨?_, hfinalrooms, mem_messageRecipients hfinalrooms, ?_⟩
  · rw [hsplit]
    simp only [applyPEvent, handle_join_machine_room, h2, if_neg h2]
    exact dlookup_dset_self _ c M2
  · intro st0 evs2 hnd r hr
    exact roomsOf_mono evs2 st0 c r hnd hr

/-- Witness instantiating C10 with the two joins and no interleaved events. -/
theorem c10_room_membership_persists_witness :
    ("M1" : String) ≠ "" ∧ ("M2" : String) ≠ "" ∧ noDisconnectOf "c1" [] ∧
    dlookup (applyPEvents [PEvent.join "c1" "M1", PEvent.join "c1" "M2"]
        initialState).sidToMachine "c1" = some "M2" ∧
    "M1" ∈ roomsOf (applyPEvents [PEvent.join "c1" "M1", PEvent.join "c1" "M2"]
        initialState) "c1" ∧
    "c1" ∈ messageRecipients (applyPEvents [PEvent.join "c1" "M1", PEvent.join "c1" "M2"]
        initialState) "M1" :=
  have hnd : noDisconnectOf "c1" [] := fun e he => absurd he (List.not_mem_nil e)
  have happ := c10_room_membership_persists "c1" "M1" "M2" []
    (by decide) (by decide) hnd
  ⟨by decide, by decide, hnd, happ.1, happ.2.1, happ.2.2.1⟩

end CableServer
